import Mathlib

/-!
# Shades web application — verification of the scrape / analyze / rebrand pipeline

A shallow embedding, in Lean 4, of the algorithmic core of the Shades web
application:

* `ProxyService.fetchViaProxy` / `ProxyService.fetchSimpleHtml`
  (`src/services/ai/scraper/proxyService.ts`),
* the structural analysis of the scrape route
  (`src/app/api/scrape-website/route.ts`, `GET`),
* `BrandAnalyzer.analyzeBrand` and its sub-passes
  (`src/services/ai/analyzer/brandAnalyzer.ts`),
* `WebsiteRebrander.rebrandWebsite`
  (`src/services/ai/rebrander/websiteRebrander.ts`).

Modelling conventions:

* Documents are modelled post-parse, as a tree of element and text nodes
  (`DomNode`).  The program parses markup with `cheerio.load`, a permissive
  external parser that never raises and maps any input string — including the
  empty string and non-markup text — to a document tree; quantifying over all
  `DomNode` values therefore covers every parser image.
* JavaScript strings become `String`; `undefined`-able strings become
  `Option String`; the JS truthiness test on a string `s` becomes `s ≠ ""`
  (resp. `o.getD "" ≠ ""`).
* The program's regular expressions are each embedded as an explicit
  left-to-right scanner with JavaScript `g`/`gi` semantics (leftmost match,
  alternatives tried in order, greedy repetition, continue after the match).
* `String.prototype.replace(new RegExp(escapeRegExp(p), 'gi'), r)` is a
  global case-insensitive *literal* replacement (the escaping makes every
  pattern character literal); it is embedded as `replaceCI`.  The replacement
  string is inserted literally, and a zero-length pattern matches at every
  scan position, as in JavaScript.
-/

namespace Shades

/-! ## String utilities -/

/-- Lower-case a character list (the `i` flag of a JS regex compares
case-insensitively). -/
def lowList (l : List Char) : List Char := l.map Char.toLower

/-- Does the case-insensitive literal pattern `pat` match at the head of `s`? -/
def ciAt (pat s : List Char) : Bool :=
  decide (lowList (s.take pat.length) = lowList pat)

/-- `List.isPrefixOf`-style containment: does `sub` occur (case-sensitively)
anywhere in `l`?  Embeds JS `String.prototype.includes`. -/
def hasSubList (sub : List Char) : List Char → Bool
  | [] => sub.isEmpty
  | c :: rest => sub.isPrefixOf (c :: rest) || hasSubList sub rest

/-- JS `s.includes(sub)`. -/
def strHas (s sub : String) : Bool := hasSubList sub.toList s.toList

/-- Count of non-overlapping, left-to-right, case-insensitive matches of the
non-empty literal `pat` in `s` (fuel-indexed; each step consumes at least one
character, so fuel `s.length` is enough). -/
def countCIAux (pat : List Char) : Nat → List Char → Nat
  | 0, _ => 0
  | _ + 1, [] => 0
  | n + 1, c :: rest =>
    if ciAt pat (c :: rest) then
      1 + countCIAux pat n ((c :: rest).drop pat.length)
    else
      countCIAux pat n rest

/-- JS `(s.match(new RegExp(escapeRegExp(pat), 'gi')) || []).length`:
the number of matches of the global case-insensitive literal pattern.
A zero-length pattern matches once at every position (`s.length + 1`). -/
def countCI (pat s : String) : Nat :=
  if pat = "" then s.length + 1
  else countCIAux pat.toList s.toList.length s.toList

/-- Interleaving used by a JS global replace with a zero-length pattern:
`"abc".replace(/(?:)/g, "X") = "XaXbXcX"`. -/
def interReplace (repl : List Char) : List Char → List Char
  | [] => repl
  | c :: rest => repl ++ c :: interReplace repl rest

/-- Replacement scanner for a non-empty case-insensitive literal pattern
(fuel-indexed, fuel `s.length` suffices). -/
def replCIAux (pat repl : List Char) : Nat → List Char → List Char
  | 0, s => s
  | _ + 1, [] => []
  | n + 1, c :: rest =>
    if ciAt pat (c :: rest) then
      repl ++ replCIAux pat repl n ((c :: rest).drop pat.length)
    else
      c :: replCIAux pat repl n rest

/-- JS `s.replace(new RegExp(escapeRegExp(pat), 'gi'), repl)`; the replacement
string is inserted literally. -/
def replaceCI (pat repl s : String) : String :=
  if pat = "" then ⟨interReplace repl.toList s.toList⟩
  else ⟨replCIAux pat.toList repl.toList s.toList.length s.toList⟩

/-- JS `String.prototype.trim`: strip leading and trailing whitespace. -/
def jsTrim (s : String) : String :=
  ⟨((s.toList.dropWhile Char.isWhitespace).reverse.dropWhile
      Char.isWhitespace).reverse⟩

/-- Splitter on a non-empty separator: leftmost, non-overlapping occurrences
(fuel-indexed; each step consumes at least one character). -/
def splitStrAux (sep : List Char) : Nat → List Char → List Char → List (List Char)
  | _, acc, [] => [acc.reverse]
  | 0, acc, rest => [acc.reverse ++ rest]
  | n + 1, acc, c :: rest =>
    if sep.isPrefixOf (c :: rest) then
      acc.reverse :: splitStrAux sep n [] ((c :: rest).drop sep.length)
    else
      splitStrAux sep n (c :: acc) rest

/-- JS `s.split(sep)` for a non-empty string separator. -/
def jsSplit (s sep : String) : List String :=
  (splitStrAux sep.toList s.toList.length [] s.toList).map (fun l => ⟨l⟩)

/-- Whitespace-run tokenization of a class attribute (split on whitespace,
empty tokens dropped). -/
def wsTokensAux : List Char → List Char → List (List Char)
  | acc, [] => if acc.isEmpty then [] else [acc.reverse]
  | acc, c :: rest =>
    if c.isWhitespace then
      if acc.isEmpty then wsTokensAux [] rest
      else acc.reverse :: wsTokensAux [] rest
    else wsTokensAux (c :: acc) rest

/-! ## Retrieval fallback chain — `ProxyService` (`proxyService.ts`)

`fetchViaProxy` walks a fixed, ordered list of four public pass-through
endpoints.  Each attempt either throws (network error, timeout, non-2xx
status rejected by axios) or resolves with a status and a body; the attempt
succeeds exactly when `response.status === 200 && response.data` (a non-empty
body).  The outcome of each endpoint for the request under consideration is
modelled by a `ProxyOutcome`, listed in endpoint order. -/

/-- Outcome of one proxy endpoint attempt: the request throws, or resolves
with an HTTP status and a body. -/
inductive ProxyOutcome where
  | err : ProxyOutcome
  | resp : Nat → String → ProxyOutcome
deriving DecidableEq, Repr

/-- The success test of the loop body:
`response.status === 200 && response.data`. -/
def ProxyOutcome.ok : ProxyOutcome → Bool
  | .err => false
  | .resp status body => status == 200 && body != ""

/-- The number of alternate proxy endpoints in the source's fixed list
(allorigins, corsproxy, thingproxy, codetabs). -/
def numProxies : Nat := 4

/-- The `for (const proxyUrl of proxies)` loop: try each endpoint in order,
return the first successful body together with the number of endpoints
attempted; `none` if every endpoint fails. -/
def tryProxies : List ProxyOutcome → Option String × Nat
  | [] => (none, 0)
  | o :: rest =>
    match o with
    | .err => let (r, n) := tryProxies rest; (r, n + 1)
    | .resp status body =>
      if status == 200 && body != "" then (some body, 1)
      else let (r, n) := tryProxies rest; (r, n + 1)

/-- The synthesized placeholder document of `fetchSimpleHtml`, embedding the
requested URL in its title, description and body. -/
def placeholderHtml (url : String) : String :=
  "\n        <!DOCTYPE html>\n        <html>\n        <head>\n            <title>Scraped from " ++
  url ++
  "</title>\n            <meta name=\"description\" content=\"This is a fallback page for " ++
  url ++
  "\">\n            <style>\n                body \x7b font-family: Arial, sans-serif; margin: 0; padding: 20px; \x7d\n                .container \x7b max-width: 800px; margin: 0 auto; \x7d\n                .alert \x7b background-color: #f8d7da; color: #721c24; padding: 10px; border-radius: 4px; margin-bottom: 20px; \x7d\n                .url \x7b word-break: break-all; \x7d\n            </style>\n        </head>\n        <body>\n            <div class=\"container\">\n                <div class=\"alert\">\n                    <p>We were unable to fully scrape the website due to security restrictions.</p>\n                    <p>Please try using a different URL or contact support if this issue persists.</p>\n                </div>\n                <h1>Fallback Content for:</h1>\n                <p class=\"url\">" ++
  url ++
  "</p>\n                <p>This is a placeholder page generated when direct scraping fails.</p>\n            </div>\n        </body>\n        </html>\n        "

/-- `ProxyService.fetchSimpleHtml`: builds the placeholder template and
returns it; it has no failure path. -/
def fetchSimpleHtml (url : String) : Except String String :=
  .ok (placeholderHtml url)

/-- `ProxyService.fetchViaProxy`: walk the proxy list; on first success return
the body; if every proxy fails, fall back to `fetchSimpleHtml`, and only if
that itself failed raise `'All scraping attempts failed'`.  Returns the result
together with the number of endpoints attempted. -/
def fetchViaProxy (url : String) (outcomes : List ProxyOutcome) :
    Except String String × Nat :=
  match tryProxies outcomes with
  | (some body, n) => (.ok body, n)
  | (none, n) =>
    match fetchSimpleHtml url with
    | .ok html => (.ok html, n)
    | .error _ => (.error "All scraping attempts failed", n)

/-! ## Document model

The program handles markup exclusively through `cheerio.load`, a permissive
parser: every input string (including `""` and non-markup text) yields a
document tree and no input raises.  Documents are therefore modelled
post-parse.  One parser invariant is relied on: a `style` element's content is
raw text, so `style` elements never contain element children; the `style`
collection/write-back functions below treat `style` elements as leaf
containers accordingly. -/

/-- A parsed document node: an element with a tag name, an attribute list (in
document order, names unique) and children, or a text node. -/
inductive DomNode where
  | elem : String → List (String × String) → List DomNode → DomNode
  | text : String → DomNode

/-- Tag name and attribute list of an element. -/
abbrev ElemInfo := String × List (String × String)

/-- Attribute lookup, `$(element).attr(name)`. -/
def getAttr (attrs : List (String × String)) (name : String) : Option String :=
  (attrs.find? (fun p => p.1 == name)).map (·.2)

/-- Attribute update, `$(element).attr(name, value)`: overwrite in place, or
append when the attribute is not present. -/
def setAttr (attrs : List (String × String)) (name value : String) :
    List (String × String) :=
  if (attrs.find? (fun p => p.1 == name)).isSome then
    attrs.map (fun p => if p.1 == name then (p.1, value) else p)
  else
    attrs ++ [(name, value)]

/-- HTML void elements, serialized without a closing tag. -/
def voidTags : List String :=
  ["area", "base", "br", "col", "embed", "hr", "img", "input", "link",
   "meta", "param", "source", "track", "wbr"]

/-- Serialize an attribute list. -/
def renderAttrs : List (String × String) → String
  | [] => ""
  | (n, v) :: rest => " " ++ n ++ "=\"" ++ v ++ "\"" ++ renderAttrs rest

mutual

/-- Serialize a node to markup (`$.html()`). -/
def render : DomNode → String
  | .text s => s
  | .elem t attrs cs =>
    if t ∈ voidTags then "<" ++ t ++ renderAttrs attrs ++ ">"
    else "<" ++ t ++ renderAttrs attrs ++ ">" ++ renderNodes cs ++ "</" ++ t ++ ">"

/-- Serialize a node list to markup. -/
def renderNodes : List DomNode → String
  | [] => ""
  | n :: rest => render n ++ renderNodes rest

end

mutual

/-- All elements of the tree in document (preorder) order — the selection
`$('*')`, and the base set of every tag/class query below. -/
def elemsInfo : DomNode → List ElemInfo
  | .text _ => []
  | .elem t attrs cs => (t, attrs) :: elemsInfoList cs

/-- `elemsInfo` over a node list. -/
def elemsInfoList : List DomNode → List ElemInfo
  | [] => []
  | n :: rest => elemsInfo n ++ elemsInfoList rest

end

mutual

/-- `$(element).text()`: the concatenation of all descendant text. -/
def innerText : DomNode → String
  | .text s => s
  | .elem _ _ cs => innerTextList cs

/-- `innerText` over a node list. -/
def innerTextList : List DomNode → String
  | [] => ""
  | n :: rest => innerText n ++ innerTextList rest

end

mutual

/-- The texts of all inline style blocks in document order:
`$('style').each((_, el) => inlineStyles.push($(el).html() || ''))`. -/
def styleTexts : DomNode → List String
  | .text _ => []
  | .elem t _ cs =>
    if t == "style" then [renderNodes cs] else styleTextsList cs

/-- `styleTexts` over a node list. -/
def styleTextsList : List DomNode → List String
  | [] => []
  | n :: rest => styleTexts n ++ styleTextsList rest

end

mutual

/-- Write-back pass of the rebrander:
`$('style').each((i, el) => { if (i < limit) { $(el).html(s); } })`.
Threads the running index `i`; every style block with index below `limit`
has its content replaced by `s`. -/
def writeStylesNode (limit : Nat) (s : String) (i : Nat) :
    DomNode → DomNode × Nat
  | .text t => (.text t, i)
  | .elem t attrs cs =>
    if t == "style" then
      (.elem t attrs (if i < limit then [DomNode.text s] else cs), i + 1)
    else
      let (cs', i') := writeStylesList limit s i cs
      (.elem t attrs cs', i')

/-- `writeStylesNode` over a node list. -/
def writeStylesList (limit : Nat) (s : String) (i : Nat) :
    List DomNode → List DomNode × Nat
  | [] => ([], i)
  | n :: rest =>
    let (n', i') := writeStylesNode limit s i n
    let (rest', i'') := writeStylesList limit s i' rest
    (n' :: rest', i'')

end

/-- Top-level style write-back. -/
def writeStyles (limit : Nat) (s : String) (d : DomNode) : DomNode :=
  (writeStylesNode limit s 0 d).1

mutual

/-- `$('head').append(x)`: append `x` as last child of every `head` element. -/
def appendToHeads (x : DomNode) : DomNode → DomNode
  | .text s => .text s
  | .elem t attrs cs =>
    if t == "head" then .elem t attrs (appendToHeadsList x cs ++ [x])
    else .elem t attrs (appendToHeadsList x cs)

/-- `appendToHeads` over a node list. -/
def appendToHeadsList (x : DomNode) : List DomNode → List DomNode
  | [] => []
  | n :: rest => appendToHeads x n :: appendToHeadsList x rest

end

mutual

/-- Text-node rewrite pass of the rebrander over nodes that are children of
elements: apply `f` to every text node, replacing the node and counting one
change whenever the result differs (`$('*').contents()` + `replaceWith`). -/
def mapTextsNode (f : String → String) : DomNode → DomNode × Nat
  | .text s =>
    let s' := f s
    if s' == s then (.text s, 0) else (.text s', 1)
  | .elem t a cs =>
    let (cs', n) := mapTextsList f cs
    (.elem t a cs', n)

/-- `mapTextsNode` over a node list. -/
def mapTextsList (f : String → String) : List DomNode → List DomNode × Nat
  | [] => ([], 0)
  | n :: rest =>
    let (n', m) := mapTextsNode f n
    let (rest', k) := mapTextsList f rest
    (n' :: rest', m + k)

end

/-- Text-node rewrite at the document root.  `$('*').contents()` selects
children of elements, so a bare root-level text node is untouched. -/
def mapTexts (f : String → String) (d : DomNode) : DomNode × Nat :=
  match d with
  | .text s => (.text s, 0)
  | .elem t a cs =>
    let (cs', n) := mapTextsList f cs
    (.elem t a cs', n)

/-- One element's attribute rewrite: apply `f` to every non-empty attribute
value, counting one change per attribute whose value differs
(`if (attrs[attr] && ...) { ... changes++ }`). -/
def mapAttrList (f : String → String) :
    List (String × String) → List (String × String) × Nat
  | [] => ([], 0)
  | (n, v) :: rest =>
    let (rest', k) := mapAttrList f rest
    if v == "" then ((n, v) :: rest', k)
    else
      let v' := f v
      if v' == v then ((n, v) :: rest', k) else ((n, v') :: rest', k + 1)

mutual

/-- Attribute rewrite pass of the rebrander over every element
(`$('*').each` + the per-attribute loop). -/
def mapAttrsNode (f : String → String) : DomNode → DomNode × Nat
  | .text s => (.text s, 0)
  | .elem t a cs =>
    let (a', m) := mapAttrList f a
    let (cs', k) := mapAttrsList f cs
    (.elem t a' cs', m + k)

/-- `mapAttrsNode` over a node list. -/
def mapAttrsList (f : String → String) : List DomNode → List DomNode × Nat
  | [] => ([], 0)
  | n :: rest =>
    let (n', m) := mapAttrsNode f n
    let (rest', k) := mapAttrsList f rest
    (n' :: rest', m + k)

end

/-! ### CSS selectors

Only the selector forms the program uses are needed: tag names, `.class`
(class-token membership), `[attr*="v"]` (attribute substring), conjunctions
of these on one element, and the descendant combinator. -/

/-- One test on one element. -/
inductive SimpleCond where
  | tagIs : String → SimpleCond
  | hasClass : String → SimpleCond
  | attrHas : String → String → SimpleCond
deriving DecidableEq, Repr

/-- A compound selector on a single element (conjunction of conditions). -/
abbrev SimpleSel := List SimpleCond

/-- A descendant chain, outermost first; the last entry is the subject. -/
abbrev Selector := List SimpleSel

/-- Class attribute split into tokens on whitespace. -/
def classTokens (s : String) : List String :=
  (wsTokensAux [] s.toList).map (fun l => ⟨l⟩)

/-- Evaluate one condition on one element. -/
def condHolds : SimpleCond → ElemInfo → Bool
  | .tagIs t, e => e.1 == t
  | .hasClass c, e => (classTokens ((getAttr e.2 "class").getD "")).contains c
  | .attrHas a v, e =>
    match getAttr e.2 a with
    | some s => strHas s v
    | none => false

/-- Evaluate a compound selector on one element. -/
def simpleHolds (sel : SimpleSel) (e : ElemInfo) : Bool :=
  sel.all (fun c => condHolds c e)

/-- Match the ancestor part of a chain (both lists innermost-first) by greedy
subsequence embedding. -/
def ancMatch : List SimpleSel → List ElemInfo → Bool
  | [], _ => true
  | _ :: _, [] => false
  | s :: ss, a :: rest =>
    if simpleHolds s a then ancMatch ss rest else ancMatch (s :: ss) rest

/-- Does element `e`, with proper ancestors `anc` (innermost first), match the
descendant chain `sel`? -/
def chainHolds (sel : Selector) (anc : List ElemInfo) (e : ElemInfo) : Bool :=
  match sel.reverse with
  | [] => false
  | subj :: above => simpleHolds subj e && ancMatch above anc

mutual

/-- First element of the tree, in document order, matching the chain —
`$(selector).first()`. -/
def findFirstNode (sel : Selector) (anc : List ElemInfo) :
    DomNode → Option DomNode
  | .text _ => none
  | .elem t a cs =>
    if chainHolds sel anc (t, a) then some (.elem t a cs)
    else findFirstList sel ((t, a) :: anc) cs

/-- `findFirstNode` over a node list. -/
def findFirstList (sel : Selector) (anc : List ElemInfo) :
    List DomNode → Option DomNode
  | [] => none
  | n :: rest =>
    match findFirstNode sel anc n with
    | some e => some e
    | none => findFirstList sel anc rest

end

/-- `$(selector).first()` on a document. -/
def queryFirst (sel : Selector) (d : DomNode) : Option DomNode :=
  findFirstNode sel [] d

mutual

/-- Apply `g` to the first element (in document order) matching the chain,
reporting whether a match was found. -/
def replFirstNode (sel : Selector) (g : DomNode → DomNode)
    (anc : List ElemInfo) : DomNode → DomNode × Bool
  | .text s => (.text s, false)
  | .elem t a cs =>
    if chainHolds sel anc (t, a) then (g (.elem t a cs), true)
    else
      let (cs', b) := replFirstList sel g ((t, a) :: anc) cs
      (.elem t a cs', b)

/-- `replFirstNode` over a node list (stop after the first match). -/
def replFirstList (sel : Selector) (g : DomNode → DomNode)
    (anc : List ElemInfo) : List DomNode → List DomNode × Bool
  | [] => ([], false)
  | n :: rest =>
    let (n', b) := replFirstNode sel g anc n
    if b then (n' :: rest, true)
    else
      let (rest', b') := replFirstList sel g anc rest
      (n' :: rest', b')

end

mutual

/-- First element with tag `t0` among a subtree (element itself included). -/
def findTagNode (t0 : String) : DomNode → Option DomNode
  | .text _ => none
  | .elem t a cs =>
    if t == t0 then some (.elem t a cs) else findTagList t0 cs

/-- `findTagNode` over a node list. -/
def findTagList (t0 : String) : List DomNode → Option DomNode
  | [] => none
  | n :: rest =>
    match findTagNode t0 n with
    | some e => some e
    | none => findTagList t0 rest

end

/-- `element.find(t0).first()`: first proper descendant with tag `t0`. -/
def findDesc (t0 : String) : DomNode → Option DomNode
  | .text _ => none
  | .elem _ _ cs => findTagList t0 cs

/-! ## Structural analysis of the scrape route (`scrape-website/route.ts`, `GET`) -/

/-- The coarse structural fingerprint of a scraped page. -/
structure PageStructure where
  header : Bool
  footer : Bool
  navigation : Bool
  sections : Nat
deriving DecidableEq, Repr

/-- `$(t).length`: number of elements with tag name `t`. -/
def countTag (d : DomNode) (t : String) : Nat :=
  ((elemsInfo d).filter (fun e => e.1 == t)).length

/-- `$('div[class*=sub]').length`: number of `div` elements whose class
attribute contains `sub` as a substring. -/
def countDivClassSub (d : DomNode) (sub : String) : Nat :=
  ((elemsInfo d).filter
    (fun e => e.1 == "div" &&
      (match getAttr e.2 "class" with
       | some c => strHas c sub
       | none => false))).length

/-- The `structure` computation of the scrape route:
`hasHeader = $('header').length > 0 || $('div[class*="header"]').length > 0`,
likewise for footer (`footer`/"footer") and navigation (`nav`/"nav"), and
`sectionCount = $('section').length + $('div[class*="section"]').length`. -/
def analyzeStructure (d : DomNode) : PageStructure :=
  { header := countTag d "header" > 0 || countDivClassSub d "header" > 0
    footer := countTag d "footer" > 0 || countDivClassSub d "footer" > 0
    navigation := countTag d "nav" > 0 || countDivClassSub d "nav" > 0
    sections := countTag d "section" + countDivClassSub d "section" }

/-- Modelled from the spec's words for the header presence check (used to
compare against the source's computation): "presence of a header-like element
(tag name `header` or any element whose class attribute contains the
substring \"header\")". -/
def specHeaderPresent (d : DomNode) : Bool :=
  (elemsInfo d).any (fun e => e.1 == "header" ||
    (match getAttr e.2 "class" with
     | some c => strHas c "header"
     | none => false))

/-! ## Data model -/

/-- `ScrapedContent` (`websiteScraper.ts` / the scrape route).  The `html`
field is modelled post-parse as the `cheerio.load` image of the raw markup;
the `struct` field is the source's `structure` field. -/
structure ScrapedContent where
  html : DomNode
  css : List String
  images : List String
  title : String
  description : String
  url : String
  struct : PageStructure

/-- `BrandElements.colors`. -/
structure BrandColors where
  primary : String
  secondary : String
  accent : Option String
  background : String
  text : String
deriving DecidableEq, Repr

/-- `BrandElements.typography`. -/
structure BrandTypography where
  primary : String
  secondary : Option String
deriving DecidableEq, Repr

/-- `BrandElements.style`. -/
structure BrandStyle where
  borderRadius : Option String
  spacing : Option String
  buttonStyle : Option String
deriving DecidableEq, Repr

/-- `BrandElements` (`brandAnalyzer.ts`). -/
structure BrandElements where
  name : String
  logo : Option String
  colors : BrandColors
  typography : BrandTypography
  style : Option BrandStyle
deriving DecidableEq, Repr

/-! ## Brand analyzer (`brandAnalyzer.ts`)

Each sub-pass below is a total function: every string/regex/tally operation
of the source is total, so the `try/catch` wrappers of the source (and the
`analyzeBrand`-level catch returning the `'Unknown Brand'` record) have no
reachable failure to absorb; the embedding makes "never throws" structural. -/

/-- A hex digit, as matched by `[0-9a-f]` under the `i` flag. -/
def isHexDigit (c : Char) : Bool :=
  c.isDigit || ('a' ≤ c && c ≤ 'f') || ('A' ≤ c && c ≤ 'F')

/-- Try the alternative `#[0-9a-f]{3,6}` (flag `i`) at the head of `cs`:
greedy, between three and six hex digits after `#`. -/
def tryHexAt : List Char → Option (List Char × List Char)
  | '#' :: rest =>
    let digits := (rest.takeWhile isHexDigit).take 6
    if digits.length ≥ 3 then some ('#' :: digits, rest.drop digits.length)
    else none
  | _ => none

/-- Try `rgba?\([^)]+\)` (resp. `hsla?\([^)]+\)`) at the head of `cs`, the
function name given as `name` (flag `i`; the optional `a` is consumed when
present — if `(` does not follow it, backtracking also fails, since the
consumed `a` is not `(`). -/
def tryFuncAt (name : List Char) (cs : List Char) : Option (List Char × List Char) :=
  if ciAt name cs then
    let namePart := cs.take name.length
    let rest1 := cs.drop name.length
    let withA :=
      match rest1 with
      | c :: r => if c.toLower == 'a' then (namePart ++ [c], r) else (namePart, rest1)
      | [] => (namePart, rest1)
    match withA.2 with
    | '(' :: r =>
      let body := r.takeWhile (fun c => c ≠ ')')
      match r.drop body.length with
      | ')' :: r' =>
        if body ≠ [] then some (withA.1 ++ '(' :: (body ++ [')']), r') else none
      | _ => none
    | _ => none
  else none

/-- One step of `/#[0-9a-f]{3,6}|rgba?\([^)]+\)|hsla?\([^)]+\)/gi`:
alternatives tried in order at the current position. -/
def tryColorAt (cs : List Char) : Option (List Char × List Char) :=
  match tryHexAt cs with
  | some r => some r
  | none =>
    match tryFuncAt ['r', 'g', 'b'] cs with
    | some r => some r
    | none => tryFuncAt ['h', 's', 'l'] cs

/-- Global scan for the color regex (fuel-indexed; every produced match
consumes at least one character, so fuel `length` is enough). -/
def scanColorsAux : Nat → List Char → List String
  | 0, _ => []
  | _ + 1, [] => []
  | n + 1, c :: rest =>
    match tryColorAt (c :: rest) with
    | some (m, r) => (⟨m⟩ : String) :: scanColorsAux n r
    | none => scanColorsAux n rest

/-- `allCss.match(/#[0-9a-f]{3,6}|rgba?\([^)]+\)|hsla?\([^)]+\)/gi) || []`. -/
def scanColors (s : String) : List String :=
  scanColorsAux s.toList.length s.toList

/-- Try `prop\s*:\s*([^;]+)` (flag `i`) at the head of `cs`. -/
def tryDeclAt (prop : List Char) (cs : List Char) : Option (List Char × List Char) :=
  if ciAt prop cs then
    let r1 := cs.drop prop.length
    let r2 := r1.dropWhile Char.isWhitespace
    match r2 with
    | ':' :: r3 =>
      let r4 := r3.dropWhile Char.isWhitespace
      let body := r4.takeWhile (fun c => c ≠ ';')
      if body ≠ [] then
        some (cs.take (cs.length - (r4.drop body.length).length), r4.drop body.length)
      else none
    | _ => none
  else none

/-- Global scan for a `prop\s*:\s*([^;]+)` declaration regex. -/
def scanDeclsAux (prop : List Char) : Nat → List Char → List String
  | 0, _ => []
  | _ + 1, [] => []
  | n + 1, c :: rest =>
    match tryDeclAt prop (c :: rest) with
    | some (m, r) => (⟨m⟩ : String) :: scanDeclsAux prop n r
    | none => scanDeclsAux prop n rest

/-- `allCss.match(new RegExp(prop + '\\s*:\\s*([^;]+)', 'gi')) || []`. -/
def scanDecls (prop : String) (s : String) : List String :=
  scanDeclsAux prop.toList s.toList.length s.toList

/-- `match.split(':')[1].trim()`: the text between the first and second colon
of a matched declaration, trimmed. -/
def declValue (m : String) : String :=
  jsTrim (((jsSplit m ":").get? 1).getD "")

/-- Insertion-order key list of a JS tally object built by
`obj[k] = (obj[k] || 0) + 1` over the list. -/
def keysInOrder (l : List String) : List String :=
  l.foldl (fun acc s => if s ∈ acc then acc else acc ++ [s]) []

/-- `Object.entries(counts)`: keys in insertion order with their counts. -/
def tally (l : List String) : List (String × Nat) :=
  (keysInOrder l).map (fun k => (k, l.count k))

/-- Stable insertion into a count-descending list: a new entry goes after all
entries with a count at least as large, so ties keep their original order, as
JS stable `sort((a, b) => b[1] - a[1])`. -/
def insertDesc (x : String × Nat) : List (String × Nat) → List (String × Nat)
  | [] => [x]
  | y :: ys => if x.2 ≤ y.2 then y :: insertDesc x ys else x :: y :: ys

/-- Stable sort of a tally by count, descending. -/
def sortCountDesc (l : List (String × Nat)) : List (String × Nat) :=
  l.foldl (fun acc x => insertDesc x acc) []

/-- `BrandAnalyzer.isWhiteOrTransparent`: true when the literal contains
`"rgba"` and contains `"0)"`, or equals `#fff`, `#ffffff` or `white`. -/
def isWhiteOrTransparent (color : String) : Bool :=
  (strHas color "rgba" && strHas color "0)") ||
    (color == "#fff" || color == "#ffffff" || color == "white")

/-- JS `parseInt(s, 16)` on the strings this program feeds it: `none` (NaN)
when there is no leading hex digit, else the value of the maximal hex-digit
prefix. -/
def parseHexPrefix (l : List Char) : Option Nat :=
  let digs := l.takeWhile isHexDigit
  if digs = [] then none
  else
    some (digs.foldl
      (fun a c =>
        a * 16 + (if c.isDigit then c.toNat - '0'.toNat else c.toLower.toNat - 'a'.toNat + 10))
      0)

/-- `BrandAnalyzer.isLightColor`: for `#`-prefixed literals, expand a 3-digit
form, read the `substring(0,2)/(2,4)/(4,6)` components in hex, and compare
the perceived brightness `(r*299 + g*587 + b*114) / 1000` against 128 (the
comparison is exact, so it is stated over naturals); literals that are not
`#`-prefixed, and short hex forms whose blue component is empty (NaN), count
as dark. -/
def isLightColor (color : String) : Bool :=
  match color.toList with
  | '#' :: hexRest =>
    let hex := if hexRest.length == 3 then hexRest.flatMap (fun c => [c, c]) else hexRest
    match parseHexPrefix (hex.take 2), parseHexPrefix ((hex.drop 2).take 2),
        parseHexPrefix ((hex.drop 4).take 2) with
    | some r, some g, some b => r * 299 + g * 587 + b * 114 > 128000
    | _, _, _ => false
  | _ => false

/-- The concatenated inline style text of the analyzer’s sub-passes:
`inlineStyles.join(' ')`. -/
def allCssOf (d : DomNode) : String := String.intercalate " " (styleTexts d)

/-- The frequency-sorted distinct color literals of the document's inline
style text. -/
def sortedColorsOf (d : DomNode) : List String :=
  (sortCountDesc (tally (scanColors (allCssOf d)))).map (·.1)

/-- `nonWhiteColors`: candidates for primary/secondary/accent. -/
def nonWhitePool (sorted : List String) : List String :=
  sorted.filter (fun c => !isWhiteOrTransparent c)

/-- `lightColors`: candidates for background. -/
def lightPool (sorted : List String) : List String :=
  sorted.filter (fun c => isLightColor c && !isWhiteOrTransparent c)

/-- `darkColors`: candidates for text. -/
def darkPool (sorted : List String) : List String :=
  sorted.filter (fun c => !isLightColor c && !isWhiteOrTransparent c)

/-- The fixed default palette of `extractColors`. -/
def defaultBrandColors : BrandColors :=
  { primary := "#3182CE", secondary := "#4299E1", accent := some "#ED8936",
    background := "#FFFFFF", text := "#1A202C" }

/-- `BrandAnalyzer.extractColors`. -/
def extractColors (content : ScrapedContent) : BrandColors :=
  let colorMatches := scanColors (allCssOf content.html)
  if colorMatches.length > 0 then
    let sorted := sortedColorsOf content.html
    let afterPSA :=
      match nonWhitePool sorted with
      | [] => defaultBrandColors
      | p :: rest1 =>
        match rest1 with
        | [] => { defaultBrandColors with primary := p }
        | s :: rest2 =>
          match rest2 with
          | [] => { defaultBrandColors with primary := p, secondary := s }
          | a :: _ =>
            { defaultBrandColors with primary := p, secondary := s, accent := some a }
    let withBg :=
      match lightPool sorted with
      | [] => afterPSA
      | b :: _ => { afterPSA with background := b }
    match darkPool sorted with
    | [] => withBg
    | t :: _ => { withBg with text := t }
  else defaultBrandColors

/-- The fixed default typography of `extractTypography`. -/
def defaultTypography : BrandTypography :=
  { primary := "System-ui, sans-serif", secondary := none }

/-- `BrandAnalyzer.extractTypography`. -/
def extractTypography (content : ScrapedContent) : BrandTypography :=
  let ms := scanDecls "font-family" (allCssOf content.html)
  if ms.length > 0 then
    let sorted := (sortCountDesc (tally (ms.map declValue))).map (·.1)
    match sorted with
    | [] => defaultTypography
    | p :: rest => { primary := p, secondary := rest.head? }
  else defaultTypography

/-- JS `parseInt(s, 10)`: skip leading whitespace and an optional sign, then
the maximal decimal-digit prefix (`none` for NaN). -/
def parseIntPrefix (s : String) : Option Int :=
  let l := s.toList.dropWhile Char.isWhitespace
  let signedTail :=
    match l with
    | '-' :: r => (true, r)
    | '+' :: r => (false, r)
    | _ => (false, l)
  let digs := signedTail.2.takeWhile Char.isDigit
  if digs = [] then none
  else
    let v : Int := digs.foldl (fun a c => a * 10 + ((c.toNat : Int) - 48)) 0
    some (if signedTail.1 then -v else v)

/-- `.css('border-radius')` on an element: the last `border-radius`
declaration of its inline `style` attribute, `none` when absent. -/
def styleDeclValue (styleAttr : String) (prop : String) : Option String :=
  (jsSplit styleAttr ";").foldl
    (fun acc decl =>
      match jsSplit decl ":" with
      | n :: rest =>
        if jsTrim n == prop then some (jsTrim (String.intercalate ":" rest))
        else acc
      | [] => acc)
    none

/-- The `'button, .btn, [class*="button"]'` selection predicate. -/
def isButtonElem (e : ElemInfo) : Bool :=
  e.1 == "button" ||
    (classTokens ((getAttr e.2 "class").getD "")).contains "btn" ||
    (match getAttr e.2 "class" with
     | some c => strHas c "button"
     | none => false)

/-- Rounded/square tallies over the button-like elements:
`if (borderRadius && parseInt(borderRadius) > 0) rounded++ else square++`. -/
def buttonRoundedCounts (d : DomNode) : Nat × Nat :=
  ((elemsInfo d).filter isButtonElem).foldl
    (fun rs e =>
      match (getAttr e.2 "style").bind (fun s => styleDeclValue s "border-radius") with
      | some v =>
        if v != "" && decide ((0 : Int) < (parseIntPrefix v).getD 0) then
          (rs.1 + 1, rs.2)
        else (rs.1, rs.2 + 1)
      | none => (rs.1, rs.2 + 1))
    (0, 0)

/-- `BrandAnalyzer.extractStyleElements`. -/
def extractStyleElements (content : ScrapedContent) : BrandStyle :=
  let base : BrandStyle := { borderRadius := none, spacing := none, buttonStyle := none }
  let ms := scanDecls "border-radius" (allCssOf content.html)
  let withBr :=
    if ms.length > 0 then
      let sorted := (sortCountDesc (tally (ms.map declValue))).map (·.1)
      match sorted.head? with
      | some v => if v ≠ "" then { base with borderRadius := some v } else base
      | none => base
    else base
  if ((elemsInfo content.html).filter isButtonElem).length > 0 then
    let rs := buttonRoundedCounts content.html
    { withBr with buttonStyle := some (if rs.1 > rs.2 then "rounded" else "square") }
  else withBr

/-- Attribute of an element node. -/
def nodeAttr (n : DomNode) (a : String) : Option String :=
  match n with
  | .elem _ attrs _ => getAttr attrs a
  | .text _ => none

/-- The prioritized brand-mark selector list of `analyzeBrand`, in source
order: `a.brand`, `a.navbar-brand`, `.brand`, `.logo`, `header .logo`,
`header h1`, `header a`, `a[class*="logo"]`, `a[class*="brand"]`. -/
def brandNameSelectors : List Selector :=
  [[[.tagIs "a", .hasClass "brand"]],
   [[.tagIs "a", .hasClass "navbar-brand"]],
   [[.hasClass "brand"]],
   [[.hasClass "logo"]],
   [[.tagIs "header"], [.hasClass "logo"]],
   [[.tagIs "header"], [.tagIs "h1"]],
   [[.tagIs "header"], [.tagIs "a"]],
   [[.tagIs "a", .attrHas "class" "logo"]],
   [[.tagIs "a", .attrHas "class" "brand"]]]

/-- The brand-name probe loop: for each selector in order take the first
matching element; accept its trimmed text when non-empty and shorter than 30
characters, else the non-empty `alt` (under the same bound) of its first
descendant image; otherwise move on to the next selector. -/
def brandNameFromSelectors : List Selector → DomNode → Option String
  | [], _ => none
  | sel :: rest, d =>
    match queryFirst sel d with
    | some e =>
      let t := jsTrim (innerText e)
      if t ≠ "" ∧ t.length < 30 then some t
      else
        match (findDesc "img" e).bind (fun img => nodeAttr img "alt") with
        | some alt =>
          if alt ≠ "" ∧ alt.length < 30 then some alt
          else brandNameFromSelectors rest d
        | none => brandNameFromSelectors rest d
    | none => brandNameFromSelectors rest d

/-- The title fallback: `title.split(' | ')[0].split(' - ')[0].trim()`. -/
def titleBrandName (title : String) : String :=
  jsTrim ((jsSplit ((jsSplit title " | ").headD "") " - ").headD "")

/-- The logo selector list, in source order. -/
def logoSelectors : List Selector :=
  [[[.tagIs "a", .hasClass "brand"], [.tagIs "img"]],
   [[.tagIs "a", .hasClass "navbar-brand"], [.tagIs "img"]],
   [[.hasClass "brand"], [.tagIs "img"]],
   [[.hasClass "logo"], [.tagIs "img"]],
   [[.tagIs "header"], [.hasClass "logo"], [.tagIs "img"]],
   [[.tagIs "a", .attrHas "class" "logo"], [.tagIs "img"]],
   [[.tagIs "a", .attrHas "class" "brand"], [.tagIs "img"]],
   [[.tagIs "img", .attrHas "class" "logo"]],
   [[.tagIs "img", .attrHas "alt" "logo"]],
   [[.tagIs "img", .attrHas "alt" "Logo"]]]

/-- The logo probe loop: first selector whose first match has a non-empty
`src`. -/
def logoFromSelectors : List Selector → DomNode → Option String
  | [], _ => none
  | sel :: rest, d =>
    match (queryFirst sel d).bind (fun e => nodeAttr e "src") with
    | some src => if src ≠ "" then some src else logoFromSelectors rest d
    | none => logoFromSelectors rest d

/-- `BrandAnalyzer.analyzeBrand`.  Total: every sub-pass is total, so the
source's catch-all branch (the `'Unknown Brand'` default record) is
unreachable and the call always returns a complete `BrandElements`. -/
def analyzeBrand (content : ScrapedContent) : BrandElements :=
  let brandName :=
    match brandNameFromSelectors brandNameSelectors content.html with
    | some n => n
    | none => titleBrandName content.title
  { name := brandName
    logo := logoFromSelectors logoSelectors content.html
    colors := extractColors content
    typography := extractTypography content
    style := some (extractStyleElements content) }

/-! ## Website rebrander (`websiteRebrander.ts`, `WebsiteRebrander.rebrandWebsite`) -/

/-- The change-audit record of `RebrandedContent.changes`. -/
structure RebrandChanges where
  nameReplacements : Nat
  colorReplacements : Nat
  fontReplacements : Nat
  logoReplaced : Bool
deriving DecidableEq, Repr

/-- `RebrandedContent`. -/
structure RebrandedContent where
  html : String
  css : String
  originalUrl : String
  changes : RebrandChanges
deriving DecidableEq, Repr

/-- URI-unreserved characters (kept verbatim by `encodeURIComponent`). -/
def uriUnreserved (c : Char) : Bool :=
  c.isAlpha || c.isDigit ||
    c ∈ ['-', '_', '.', '!', '~', '*', '(', ')'] || c == Char.ofNat 39

/-- UTF-8 bytes of a code point. -/
def utf8Bytes (c : Char) : List Nat :=
  let n := c.toNat
  if n < 0x80 then [n]
  else if n < 0x800 then [0xC0 + n / 64, 0x80 + n % 64]
  else if n < 0x10000 then [0xE0 + n / 4096, 0x80 + n / 64 % 64, 0x80 + n % 64]
  else [0xF0 + n / 262144, 0x80 + n / 4096 % 64, 0x80 + n / 64 % 64, 0x80 + n % 64]

/-- An upper-case hex digit. -/
def hexDigitUpper (n : Nat) : Char :=
  if n < 10 then Char.ofNat (48 + n) else Char.ofNat (55 + n)

/-- JS `encodeURIComponent`: percent-encode every byte of every character
outside the unreserved set. -/
def encodeURIComponent (s : String) : String :=
  ⟨s.toList.flatMap (fun c =>
    if uriUnreserved c then [c]
    else (utf8Bytes c).flatMap
      (fun b => ['%', hexDigitUpper (b / 16), hexDigitUpper (b % 16)]))⟩

/-- JS `s.replace(pat, repl)` with a plain STRING pattern: replace only the
first (case-sensitive, literal) occurrence. -/
def replFirstStrAux (pat repl : List Char) : List Char → List Char
  | [] => []
  | c :: rest =>
    if pat.isPrefixOf (c :: rest) then repl ++ (c :: rest).drop pat.length
    else c :: replFirstStrAux pat repl rest

/-- JS first-occurrence string replacement (an empty pattern matches at
position 0). -/
def replaceFirstStr (pat repl s : String) : String :=
  if pat = "" then repl ++ s else ⟨replFirstStrAux pat.toList repl.toList s.toList⟩

/-- Logo element update: point `src` at the generated placeholder encoding
the new brand name, and set `alt` to `newName + ' logo'`. -/
def setLogoAttrs (newName : String) : DomNode → DomNode
  | .elem t attrs cs =>
    let a1 := setAttr attrs "src"
      ("https://via.placeholder.com/150x50/3182CE/FFFFFF/?text=" ++
        encodeURIComponent newName)
    .elem t (setAttr a1 "alt" (newName ++ " logo")) cs
  | .text s => .text s

/-- The logo-replacement loop: first selector (in order) with a match has its
first match's `src`/`alt` rewritten; then break. -/
def replaceLogo (newName : String) : List Selector → DomNode → DomNode × Bool
  | [], d => (d, false)
  | sel :: rest, d =>
    let r := replFirstNode sel (setLogoAttrs newName) [] d
    if r.2 then (r.1, true) else replaceLogo newName rest d

/-- One replacement step of the rebrander: globally replace `pat` by `repl`
in the CSS text, then add the number of matches of `pat` found in the text
AFTER the replacement (`allCss = allCss.replace(regex, new);
changes += (allCss.match(regex) || []).length` — the re-scan of the replaced
text present in the source). -/
def replaceAndRecount (css pat repl : String) : String × Nat :=
  let css' := replaceCI pat repl css
  (css', countCI pat css')

/-- Name-replacement stage: under the truthiness guard on both names, rewrite
every text node, then every attribute value, counting one change per text
node and per attribute whose value changed. -/
def nameStage (ob nb : BrandElements) (d : DomNode) : DomNode × Nat :=
  if ob.name ≠ "" ∧ nb.name ≠ "" then
    let f := replaceCI ob.name nb.name
    let r1 := mapTexts f d
    let r2 := mapAttrsNode f r1.1
    (r2.1, r1.2 + r2.2)
  else (d, 0)

/-- Logo-replacement stage, run only when the original brand has a logo. -/
def logoStage (ob nb : BrandElements) (d : DomNode) : DomNode × Bool :=
  if ob.logo.getD "" ≠ "" then replaceLogo nb.name logoSelectors d
  else (d, false)

/-- The color then typography replacement passes over the joined CSS text
(primary slots unconditionally — the `colors`/`typography` objects are
required fields, so their truthiness guards always hold — secondary and
accent slots under per-field truthiness guards), returning the final CSS and
the color / font change totals. -/
def cssStage (ob nb : BrandElements) (css0 : String) : String × Nat × Nat :=
  let r1 := replaceAndRecount css0 ob.colors.primary nb.colors.primary
  let r2 :=
    if ob.colors.secondary ≠ "" ∧ nb.colors.secondary ≠ "" then
      replaceAndRecount r1.1 ob.colors.secondary nb.colors.secondary
    else (r1.1, 0)
  let r3 :=
    if ob.colors.accent.getD "" ≠ "" ∧ nb.colors.accent.getD "" ≠ "" then
      replaceAndRecount r2.1 (ob.colors.accent.getD "") (nb.colors.accent.getD "")
    else (r2.1, 0)
  let r4 := replaceAndRecount r3.1 ob.typography.primary nb.typography.primary
  let r5 :=
    if ob.typography.secondary.getD "" ≠ "" ∧ nb.typography.secondary.getD "" ≠ "" then
      replaceAndRecount r4.1 (ob.typography.secondary.getD "")
        (nb.typography.secondary.getD "")
    else (r4.1, 0)
  (r5.1, r1.2 + r2.2 + r3.2, r4.2 + r5.2)

/-- The appended Google-Fonts stylesheet link for the new primary font. -/
def fontLinkNode (fontName : String) : DomNode :=
  .elem "link"
    [("href", "https://fonts.googleapis.com/css2?family=" ++
        replaceFirstStr " " "+" fontName ++ "&display=swap"),
     ("rel", "stylesheet")] []

/-- The fixed generator marker meta tag. -/
def generatorMeta : DomNode :=
  .elem "meta" [("name", "generator"), ("content", "Shades AI Rebranding Tool")] []

/-- Final document assembly: write the joined transformed CSS back into the
inline style blocks, append the font link (unless the first comma-segment of
the new primary font, trimmed, is `System-ui`), append the generator meta. -/
def assembleDom (nb : BrandElements) (d : DomNode) (numStyles : Nat)
    (allCss : String) : DomNode :=
  let d1 := writeStyles numStyles allCss d
  let d2 :=
    if nb.typography.primary ≠ "" then
      let fontName := jsTrim ((jsSplit nb.typography.primary ",").headD "")
      if fontName ≠ "System-ui" then appendToHeads (fontLinkNode fontName) d1
      else d1
    else d1
  appendToHeads generatorMeta d2

/-- The full transformation pipeline of `rebrandWebsite`: the final document
tree, the final CSS text, and the change record. -/
def rebrandPipeline (content : ScrapedContent) (ob nb : BrandElements) :
    DomNode × String × RebrandChanges :=
  let r1 := nameStage ob nb content.html
  let r2 := logoStage ob nb r1.1
  let styles := styleTexts r2.1
  let css0 := String.intercalate "\n" styles
  let r3 := cssStage ob nb css0
  let d3 := assembleDom nb r2.1 styles.length r3.1
  (d3, r3.1, ⟨r1.2, r3.2.1, r3.2.2, r2.2⟩)

/-- `WebsiteRebrander.rebrandWebsite`.  Total: no branch of the source throws
for well-typed inputs (the `try/catch` wrapper has no reachable failure), and
in particular no validation of the `newBrand` argument is performed. -/
def rebrandWebsite (content : ScrapedContent) (ob nb : BrandElements) :
    RebrandedContent :=
  let r := rebrandPipeline content ob nb
  { html := render r.1, css := r.2.1, originalUrl := content.url, changes := r.2.2 }

/-- The validation performed by the CALLER of `rebrandWebsite` (the
`WebsiteRebranderPage.handleRebrandWebsite` handler), before invoking it:
`if (!newBrand.name || !newBrand.colors.primary ||
!newBrand.typography.primary) throw new Error('Please fill in all required
brand information.')`. -/
def callerTargetValid (nb : BrandElements) : Bool :=
  nb.name != "" && nb.colors.primary != "" && nb.typography.primary != ""

/-- The document after the name and logo stages of the rebrander (the state
whose inline style blocks are collected and later written back). -/
def domAfterLogo (content : ScrapedContent) (ob nb : BrandElements) : DomNode :=
  (logoStage ob nb (nameStage ob nb content.html).1).1

/-- The final transformed CSS text of the rebrander: the name/logo-stage
style blocks joined by newline, then the color and typography passes. -/
def finalCss (content : ScrapedContent) (ob nb : BrandElements) : String :=
  (cssStage ob nb
    (String.intercalate "\n" (styleTexts (domAfterLogo content ob nb)))).1

/-- Modelled from the spec's words for the write-back the claim describes
(used to compare against the source's computation): "the i-th style block
receives the transformed text of the i-th original block" — each original
block transformed by the same replacement passes, kept in its place. -/
def specPositionalStyleTexts (content : ScrapedContent) (ob nb : BrandElements) :
    List String :=
  (styleTexts (domAfterLogo content ob nb)).map (fun t => (cssStage ob nb t).1)

/-! ## Concrete documents and brands used as test inputs -/

/-- A page with a brand-name text occurrence and one inline style block. -/
def c1Doc : DomNode :=
  DomNode.elem "html" []
    [DomNode.elem "head" [] [],
     DomNode.elem "body" []
       [DomNode.elem "p" [] [DomNode.text "Hello Acme"],
        DomNode.elem "style" [] [DomNode.text "body\x7bcolor:#112233\x7d"]]]

/-- Scrape result wrapping `c1Doc`. -/
def c1Content : ScrapedContent :=
  ⟨c1Doc, [], [], "Acme", "", "https://example.com", ⟨false, false, false, 0⟩⟩

/-- An original brand matching `c1Doc`. -/
def c1Original : BrandElements :=
  { name := "Acme", logo := none,
    colors := { primary := "#112233", secondary := "#445566", accent := none,
                background := "#FFFFFF", text := "#1A202C" },
    typography := { primary := "Arial", secondary := none }, style := none }

/-- A caller-supplied target brand whose `name` is empty. -/
def c1EmptyTarget : BrandElements :=
  { name := "", logo := none,
    colors := { primary := "#ff0000", secondary := "#00ff00", accent := none,
                background := "#FFFFFF", text := "#1A202C" },
    typography := { primary := "Georgia", secondary := none }, style := none }

/-- A page whose single style block contains one occurrence of the original
primary color. -/
def c2Doc : DomNode :=
  DomNode.elem "html" []
    [DomNode.elem "head" [] [],
     DomNode.elem "body" []
       [DomNode.elem "style" [] [DomNode.text "body\x7bcolor:#112233\x7d"]]]

/-- Scrape result wrapping `c2Doc`. -/
def c2Content : ScrapedContent :=
  ⟨c2Doc, [], [], "", "", "https://example.com", ⟨false, false, false, 0⟩⟩

/-- Original brand for the counting test. -/
def c2Original : BrandElements :=
  { name := "Acme", logo := none,
    colors := { primary := "#112233", secondary := "#445566", accent := none,
                background := "#FFFFFF", text := "#1A202C" },
    typography := { primary := "Arial", secondary := none }, style := none }

/-- Target brand for the counting test (all required fields non-empty). -/
def c2Target : BrandElements :=
  { name := "Zenith", logo := none,
    colors := { primary := "#ff0000", secondary := "#00ff00", accent := none,
                background := "#FFFFFF", text := "#1A202C" },
    typography := { primary := "Georgia", secondary := none }, style := none }

/-- Non-markup garbage: `cheerio.load` maps it to a bare text node. -/
def garbageContent : ScrapedContent :=
  ⟨DomNode.text "<<<<not markup>>>> ???", [], [], "", "", "https://example.com",
   ⟨false, false, false, 0⟩⟩

/-- An empty-skeleton page (the `cheerio.load('')` image) with empty title. -/
def c4EmptyContent : ScrapedContent :=
  ⟨DomNode.elem "html" [] [DomNode.elem "head" [] [], DomNode.elem "body" [] []],
   [], [], "", "", "https://example.com", ⟨false, false, false, 0⟩⟩

/-- The empty-skeleton page with a non-empty title. -/
def c4TitledContent : ScrapedContent :=
  ⟨DomNode.elem "html" [] [DomNode.elem "head" [] [], DomNode.elem "body" [] []],
   [], [], "Acme | Home", "", "https://example.com", ⟨false, false, false, 0⟩⟩

/-- A page with two distinct inline style blocks. -/
def c5Doc : DomNode :=
  DomNode.elem "html" []
    [DomNode.elem "head" []
       [DomNode.elem "style" [] [DomNode.text "a\x7bcolor:red\x7d"],
        DomNode.elem "style" [] [DomNode.text "b\x7bcolor:blue\x7d"]],
     DomNode.elem "body" [] []]

/-- Scrape result wrapping `c5Doc`. -/
def c5Content : ScrapedContent :=
  ⟨c5Doc, [], [], "", "", "https://example.com", ⟨false, false, false, 0⟩⟩

/-- A brand used as both original and target, whose signals do not occur in
`c5Doc`, so every replacement pass is the identity. -/
def c5Brand : BrandElements :=
  { name := "Q", logo := none,
    colors := { primary := "#111111", secondary := "#222222", accent := none,
                background := "#FFFFFF", text := "#1A202C" },
    typography := { primary := "Arial", secondary := none }, style := none }

/-- Style text containing three distinct non-white colors with frequencies
five, three and one. -/
def c7Css : String :=
  "#111111 #111111 #111111 #111111 #111111 #222222 #222222 #222222 #333333"

/-- Scrape result whose single style block is `c7Css`. -/
def c7Content : ScrapedContent :=
  ⟨DomNode.elem "html" []
     [DomNode.elem "body" [] [DomNode.elem "style" [] [DomNode.text c7Css]]],
   [], [], "", "", "https://example.com", ⟨false, false, false, 0⟩⟩

/-- A document whose only header-like element is a `span` with class
`header`. -/
def spanHeaderDoc : DomNode :=
  DomNode.elem "html" []
    [DomNode.elem "body" [] [DomNode.elem "span" [("class", "header")] []]]

/-! ## Helper lemmas -/

/-- `hasSubList` agrees with the declarative substring property. -/
theorem hasSubList_iff (sub l : List Char) :
    hasSubList sub l = true ↔ ∃ p q, l = p ++ sub ++ q := by
  induction l with
  | nil =>
    simp [hasSubList, List.isEmpty_iff]
  | cons c rest ih =>
    simp only [hasSubList, Bool.or_eq_true, ih]
    constructor
    · rintro (hpre | ⟨p, q, rfl⟩)
      · rcases List.isPrefixOf_iff_prefix.mp hpre with ⟨t, ht⟩
        exact ⟨[], t, by simp [ht.symm]⟩
      · exact ⟨c :: p, q, rfl⟩
    · rintro ⟨p, q, hpq⟩
      cases p with
      | nil =>
        left
        exact List.isPrefixOf_iff_prefix.mpr ⟨q, by simpa using hpq.symm⟩
      | cons p0 ps =>
        right
        injection hpq with h1 h2
        exact ⟨ps, q, h2⟩

/-- `strHas` (JS `includes`) agrees with the declarative substring
property on strings. -/
theorem strHas_iff (s sub : String) :
    strHas s sub = true ↔ ∃ p q : String, s = p ++ sub ++ q := by
  unfold strHas
  rw [hasSubList_iff]
  constructor
  · rintro ⟨p, q, hpq⟩
    refine ⟨⟨p⟩, ⟨q⟩, ?_⟩
    apply String.ext
    simpa [String.data_append] using hpq
  · rintro ⟨p, q, rfl⟩
    exact ⟨p.data, q.data, by simp [String.data_append]⟩

/-- A proxy chain in which every endpoint fails yields no body after
attempting every endpoint once. -/
theorem tryProxies_all_fail (outcomes : List ProxyOutcome)
    (h : ∀ o ∈ outcomes, o.ok = false) :
    tryProxies outcomes = (none, outcomes.length) := by
  induction outcomes with
  | nil => rfl
  | cons o os ih =>
    have ho := h o (List.mem_cons_self o os)
    have ih' := ih fun x hx => h x (List.mem_cons_of_mem o hx)
    cases o with
    | err => simp [tryProxies, ih']
    | resp s b =>
      simp only [ProxyOutcome.ok] at ho
      simp [tryProxies, ho, ih']

/-- A proxy chain with failing endpoints followed by a 200/non-empty endpoint
returns that endpoint's body after exactly `fails.length + 1` attempts. -/
theorem tryProxies_first_success (fails rest : List ProxyOutcome) (body : String)
    (hfail : ∀ o ∈ fails, o.ok = false) (hbody : body ≠ "") :
    tryProxies (fails ++ ProxyOutcome.resp 200 body :: rest) =
      (some body, fails.length + 1) := by
  induction fails with
  | nil =>
    simp [tryProxies, bne_iff_ne, hbody]
  | cons o os ih =>
    have ho := hfail o (List.mem_cons_self o os)
    have ih' := ih fun x hx => hfail x (List.mem_cons_of_mem o hx)
    cases o with
    | err => simp [tryProxies, ih']
    | resp s b =>
      simp only [ProxyOutcome.ok] at ho
      simp [tryProxies, ho, ih']

/-! ## Claims -/

/-- **C6.** For every URL and every outcome sequence of the ordered
alternate-endpoint list, if endpoints `1..N` fail (error, non-200 status, or
empty body) and endpoint `N+1` returns a 200 status with a non-empty body,
then `fetchViaProxy` returns exactly endpoint `N+1`'s body, attempts no
endpoint beyond `N+1` (total attempts `N+1`), and never retries a failed
endpoint (each of the `N` failed endpoints is attempted exactly once). -/
theorem fetchViaProxy_first_success (url : String)
    (fails rest : List ProxyOutcome) (body : String)
    (hfail : ∀ o ∈ fails, o.ok = false) (hbody : body ≠ "")
    (hlen : (fails ++ ProxyOutcome.resp 200 body :: rest).length = numProxies) :
    fetchViaProxy url (fails ++ ProxyOutcome.resp 200 body :: rest) =
      (Except.ok body, fails.length + 1) := by
  unfold fetchViaProxy
  rw [tryProxies_first_success fails rest body hfail hbody]

/-- Witness for **C6**: two failures (a network error and a rejected status),
then a successful endpoint; its body is returned after three attempts and the
fourth endpoint is never attempted. -/
theorem fetchViaProxy_first_success_witness :
    (∀ o ∈ ([ProxyOutcome.err, ProxyOutcome.resp 503 "x"] : List ProxyOutcome),
      o.ok = false) ∧
    ("<html>page</html>" : String) ≠ "" ∧
    ([ProxyOutcome.err, ProxyOutcome.resp 503 "x"] ++
      ProxyOutcome.resp 200 "<html>page</html>" :: [ProxyOutcome.err]).length =
      numProxies ∧
    fetchViaProxy "https://example.com"
        ([ProxyOutcome.err, ProxyOutcome.resp 503 "x"] ++
          ProxyOutcome.resp 200 "<html>page</html>" :: [ProxyOutcome.err]) =
      (Except.ok "<html>page</html>", 3) :=
  ⟨by decide, by decide, by decide,
    fetchViaProxy_first_success "https://example.com" _ _ _
      (by decide) (by decide) (by decide)⟩

set_option maxRecDepth 4000 in
/-- **C9.** `fetchViaProxy` is total on the all-endpoints-fail path: its
result is always `ok` (the `'All scraping attempts failed'` error branch is
unreachable, because `fetchSimpleHtml` cannot fail), and when all four
endpoints fail it returns the synthesized placeholder document —
a non-empty string embedding the URL. -/
theorem fetchViaProxy_all_fail_placeholder (url : String)
    (outcomes : List ProxyOutcome) :
    (fetchViaProxy url outcomes).1.isOk = true ∧
    (outcomes.length = numProxies → (∀ o ∈ outcomes, o.ok = false) →
      fetchViaProxy url outcomes = (Except.ok (placeholderHtml url), numProxies)) ∧
    placeholderHtml url ≠ "" ∧
    (∃ pre post, placeholderHtml url = pre ++ url ++ post) := by
  refine ⟨?_, ?_, ?_, ?_⟩
  · unfold fetchViaProxy
    rcases h : tryProxies outcomes with ⟨r, n⟩
    cases r <;> simp [fetchSimpleHtml, Except.isOk, Except.toBool]
  · intro hlen hfail
    unfold fetchViaProxy
    rw [tryProxies_all_fail outcomes hfail, hlen]
    rfl
  · unfold placeholderHtml
    intro h
    have h2 := congrArg String.data h
    simp only [String.data_append] at h2
    simp only [List.append_eq_nil] at h2
    exact absurd h2.1.1.1.1.1.1 (by decide)
  · unfold placeholderHtml
    exact ⟨_, _, rfl⟩

/-- Witness for **C9**: all four endpoints fail (two errors, a non-200
response, a 200 response with empty body); the placeholder is returned. -/
theorem fetchViaProxy_all_fail_placeholder_witness :
    fetchViaProxy "https://example.com"
        [ProxyOutcome.err, ProxyOutcome.err, ProxyOutcome.resp 404 "x",
         ProxyOutcome.resp 200 ""] =
      (Except.ok (placeholderHtml "https://example.com"), numProxies) :=
  (fetchViaProxy_all_fail_placeholder "https://example.com"
      [ProxyOutcome.err, ProxyOutcome.err, ProxyOutcome.resp 404 "x",
       ProxyOutcome.resp 200 ""]).2.1 (by decide) (by decide)

/-- **C10.** `isWhiteOrTransparent` returns true exactly when the color
string contains `"rgba"` and contains the substring `"0)"`, or equals
`#fff`, `#ffffff` or `white`; consequently the fully opaque literal
`rgba(255,0,0,1.0)` (whose text ends in `0)`) is classified as transparent
and is excluded from the primary/secondary/accent, background and text
candidate pools. -/
theorem isWhiteOrTransparent_rule (sorted : List String) :
    (∀ c : String,
      isWhiteOrTransparent c = true ↔
        (((∃ p q : String, c = p ++ "rgba" ++ q) ∧
          (∃ p q : String, c = p ++ "0)" ++ q)) ∨
          (c = "#fff" ∨ c = "#ffffff" ∨ c = "white"))) ∧
    isWhiteOrTransparent "rgba(255,0,0,1.0)" = true ∧
    "rgba(255,0,0,1.0)" ∉ nonWhitePool sorted ∧
    "rgba(255,0,0,1.0)" ∉ lightPool sorted ∧
    "rgba(255,0,0,1.0)" ∉ darkPool sorted := by
  refine ⟨?_, by decide, ?_, ?_, ?_⟩
  · intro c
    simp only [isWhiteOrTransparent, Bool.or_eq_true, Bool.and_eq_true,
      strHas_iff, beq_iff_eq, or_assoc]
  · intro hmem
    exact absurd (List.mem_filter.mp hmem).2 (by decide)
  · intro hmem
    exact absurd (List.mem_filter.mp hmem).2 (by decide)
  · intro hmem
    exact absurd (List.mem_filter.mp hmem).2 (by decide)

/-- **C1** (counterexample.)  The claim says a target with an empty `name`
makes `rebrandWebsite` fail with a validation error before any
transformation, producing no `RebrandedContent`.  On the code, the call with
an empty-name target raises nothing, runs the color/font transformations
(the CSS is rewritten from `#112233` to `#ff0000`), and returns a complete
`RebrandedContent`. -/
theorem rebrandWebsite_empty_name_no_error :
    c1EmptyTarget.name = "" ∧
    (rebrandWebsite c1Content c1Original c1EmptyTarget).css =
      "body\x7bcolor:#ff0000\x7d" ∧
    (rebrandWebsite c1Content c1Original c1EmptyTarget).changes =
      ⟨0, 0, 0, false⟩ ∧
    (rebrandWebsite c1Content c1Original c1EmptyTarget).originalUrl =
      "https://example.com" := by
  decide

/-- **C1** (amended.)  `rebrandWebsite` itself performs no validation and
never fails: for every target — including one with an empty `name`, empty
`colors.primary` or empty `typography.primary` — it returns a complete
`RebrandedContent` (transformations guarded by the empty fields are merely
skipped).  The required-field validation is performed by the calling page
component (`handleRebrandWebsite`), which throws before invoking
`rebrandWebsite` exactly when `target.name`, `target.colors.primary` or
`target.typography.primary` is empty. -/
theorem rebrandWebsite_no_validation (content : ScrapedContent)
    (ob nb : BrandElements) :
    (rebrandWebsite content ob nb).originalUrl = content.url ∧
    (callerTargetValid nb = false ↔
      (nb.name = "" ∨ nb.colors.primary = "" ∨ nb.typography.primary = "")) := by
  refine ⟨rfl, ?_⟩
  simp [callerTargetValid]
  tauto

/-! ### Analyzer helper lemmas -/

/-- Keys accumulated by the tally fold come from the accumulator or the
tallied list. -/
theorem mem_keysFold (l : List String) (acc : List String) (k : String)
    (h : k ∈ l.foldl (fun acc s => if s ∈ acc then acc else acc ++ [s]) acc) :
    k ∈ acc ∨ k ∈ l := by
  induction l generalizing acc with
  | nil => exact Or.inl h
  | cons x xs ih =>
    rw [List.foldl_cons] at h
    rcases ih _ h with hacc | hxs
    · by_cases hx : x ∈ acc
      · rw [if_pos hx] at hacc
        exact Or.inl hacc
      · rw [if_neg hx] at hacc
        rcases List.mem_append.mp hacc with h1 | h1
        · exact Or.inl h1
        · simp only [List.mem_singleton] at h1
          exact Or.inr (h1 ▸ List.mem_cons_self x xs)
    · exact Or.inr (List.mem_cons_of_mem x hxs)

/-- Every key of the tally object occurs in the tallied list. -/
theorem mem_keysInOrder (l : List String) (k : String) (h : k ∈ keysInOrder l) :
    k ∈ l := by
  rcases mem_keysFold l [] k h with h1 | h1
  · cases h1
  · exact h1

/-- Insertion into the descending sort adds no new entries. -/
theorem mem_insertDesc (x y : String × Nat) (l : List (String × Nat))
    (h : x ∈ insertDesc y l) : x = y ∨ x ∈ l := by
  induction l with
  | nil => simpa [insertDesc] using h
  | cons z zs ih =>
    rw [insertDesc] at h
    split at h
    · rcases List.mem_cons.mp h with h1 | h1
      · exact Or.inr (h1 ▸ List.mem_cons_self z zs)
      · rcases ih h1 with h2 | h2
        · exact Or.inl h2
        · exact Or.inr (List.mem_cons_of_mem z h2)
    · rcases List.mem_cons.mp h with h1 | h1
      · exact Or.inl h1
      · exact Or.inr h1

/-- The descending sort is a rearrangement: every entry of the output is an
entry of the input. -/
theorem mem_sortFold (l : List (String × Nat)) (acc : List (String × Nat))
    (x : String × Nat) (h : x ∈ l.foldl (fun acc y => insertDesc y acc) acc) :
    x ∈ acc ∨ x ∈ l := by
  induction l generalizing acc with
  | nil => exact Or.inl h
  | cons z zs ih =>
    rw [List.foldl_cons] at h
    rcases ih _ h with hacc | hzs
    · rcases mem_insertDesc x z acc hacc with h1 | h1
      · exact Or.inr (h1 ▸ List.mem_cons_self z zs)
      · exact Or.inl h1
    · exact Or.inr (List.mem_cons_of_mem z hzs)

/-- Members of `sortCountDesc l` are members of `l`. -/
theorem mem_sortCountDesc (l : List (String × Nat)) (x : String × Nat)
    (h : x ∈ sortCountDesc l) : x ∈ l := by
  rcases mem_sortFold l [] x h with h1 | h1
  · cases h1
  · exact h1

/-- Every ranked color literal was produced by the color scan. -/
theorem mem_sortedColorsOf (d : DomNode) (c : String)
    (h : c ∈ sortedColorsOf d) : c ∈ scanColors (allCssOf d) := by
  unfold sortedColorsOf at h
  rcases List.mem_map.mp h with ⟨⟨k, n⟩, hk, hEq⟩
  have hmem := mem_sortCountDesc _ _ hk
  unfold tally at hmem
  rcases List.mem_map.mp hmem with ⟨k', hk', hEq'⟩
  have hkk : k' = k := (Prod.mk.injEq .. ▸ hEq').1
  subst hkk
  exact hEq ▸ mem_keysInOrder _ _ hk'

/-- A match produced by the hex alternative is non-empty. -/
theorem tryHexAt_ne_nil (cs m r : List Char) (h : tryHexAt cs = some (m, r)) :
    m ≠ [] := by
  rw [tryHexAt.eq_def] at h
  simp only [] at h
  split at h
  · split at h
    · simp only [Option.some.injEq, Prod.mk.injEq] at h
      rw [← h.1]
      simp
    · cases h
  · cases h

/-- A match produced by the function-literal alternative is non-empty. -/
theorem tryFuncAt_ne_nil (name cs m r : List Char)
    (h : tryFuncAt name cs = some (m, r)) : m ≠ [] := by
  rw [tryFuncAt.eq_def] at h
  simp only [] at h
  split at h
  · split at h
    · split at h
      · split at h
        · simp only [Option.some.injEq, Prod.mk.injEq] at h
          rw [← h.1]
          simp
        · cases h
      · cases h
    · cases h
  · cases h

/-- A match produced by the color regex is non-empty. -/
theorem tryColorAt_ne_nil (cs m r : List Char)
    (h : tryColorAt cs = some (m, r)) : m ≠ [] := by
  unfold tryColorAt at h
  rcases h1 : tryHexAt cs with _ | p
  · rw [h1] at h
    rcases h2 : tryFuncAt ['r', 'g', 'b'] cs with _ | q
    · rw [h2] at h
      exact tryFuncAt_ne_nil _ _ _ _ h
    · rw [h2] at h
      simp only [Option.some.injEq] at h
      subst h
      exact tryFuncAt_ne_nil _ _ _ _ h2
  · rw [h1] at h
    simp only [Option.some.injEq] at h
    subst h
    exact tryHexAt_ne_nil _ _ _ h1

/-- Every string produced by the color scan is non-empty. -/
theorem mem_scanColorsAux_ne_empty (n : Nat) (cs : List Char) (m : String)
    (h : m ∈ scanColorsAux n cs) : m ≠ "" := by
  induction n generalizing cs with
  | zero => simp [scanColorsAux] at h
  | succ k ih =>
    cases cs with
    | nil => simp [scanColorsAux] at h
    | cons c rest =>
      rw [scanColorsAux] at h
      rcases htry : tryColorAt (c :: rest) with _ | ⟨mm, rr⟩
      · rw [htry] at h
        exact ih rest h
      · rw [htry] at h
        rcases List.mem_cons.mp h with h1 | h1
        · subst h1
          intro he
          exact tryColorAt_ne_nil _ _ _ htry (congrArg String.data he)
        · exact ih rr h1

/-- Every color literal the scanner returns is non-empty. -/
theorem mem_scanColors_ne_empty (s : String) (m : String)
    (h : m ∈ scanColors s) : m ≠ "" :=
  mem_scanColorsAux_ne_empty _ _ _ h

/-- Every ranked color literal is non-empty. -/
theorem sortedColors_ne_empty (d : DomNode) (c : String)
    (hc : c ∈ sortedColorsOf d) : c ≠ "" :=
  mem_scanColors_ne_empty _ _ (mem_sortedColorsOf d c hc)

/-- `headD` over a sub-pool of the ranked colors is non-empty whenever the
default is. -/
theorem pool_headD_ne_empty (d : DomNode) (l : List String) (dflt : String)
    (hsub : ∀ c ∈ l, c ∈ sortedColorsOf d) (hd : dflt ≠ "") :
    l.headD dflt ≠ "" := by
  cases l with
  | nil => simpa using hd
  | cons x xs =>
    simp only [List.headD_cons]
    exact sortedColors_ne_empty d x (hsub x (List.mem_cons_self x xs))

/-- Shape of `extractColors`: when the scan produced at least one literal,
each slot is the head of its candidate pool with the default palette value as
fallback; otherwise the whole default palette. -/
theorem extractColors_spec (content : ScrapedContent) :
    extractColors content =
      (if 0 < (scanColors (allCssOf content.html)).length then
        { primary := (nonWhitePool (sortedColorsOf content.html)).headD "#3182CE"
          secondary :=
            ((nonWhitePool (sortedColorsOf content.html)).drop 1).headD "#4299E1"
          accent :=
            some (((nonWhitePool (sortedColorsOf content.html)).drop 2).headD
              "#ED8936")
          background := (lightPool (sortedColorsOf content.html)).headD "#FFFFFF"
          text := (darkPool (sortedColorsOf content.html)).headD "#1A202C" }
      else defaultBrandColors) := by
  simp only [extractColors]
  split
  · rcases hnw : nonWhitePool (sortedColorsOf content.html) with
      _ | ⟨p, _ | ⟨s, _ | ⟨a, arest⟩⟩⟩ <;>
    rcases hl : lightPool (sortedColorsOf content.html) with _ | ⟨b, lrest⟩ <;>
    rcases hd : darkPool (sortedColorsOf content.html) with _ | ⟨t, drest⟩ <;>
      simp [defaultBrandColors]
  · rfl

/-- The primary/secondary/accent assignment when at least three non-white
candidates exist. -/
theorem extractColors_psa_of_pool (content : ScrapedContent)
    (hne : 0 < (scanColors (allCssOf content.html)).length)
    (c1 c2 c3 : String) (rest : List String)
    (hpool : nonWhitePool (sortedColorsOf content.html) = c1 :: c2 :: c3 :: rest) :
    (extractColors content).primary = c1 ∧
    (extractColors content).secondary = c2 ∧
    (extractColors content).accent = some c3 := by
  rw [extractColors_spec, if_pos hne, hpool]
  simp

/-- A brand-name candidate accepted by the selector probe is non-empty. -/
theorem brandNameFromSelectors_ne (sels : List Selector) (d : DomNode)
    (n : String) (h : brandNameFromSelectors sels d = some n) : n ≠ "" := by
  induction sels with
  | nil => simp [brandNameFromSelectors] at h
  | cons sel rest ih =>
    rw [brandNameFromSelectors] at h
    simp only [] at h
    split at h
    · split at h
      · rename_i hcond
        simp only [Option.some.injEq] at h
        subst h
        exact hcond.1
      · split at h
        · split at h
          · rename_i hcond2
            simp only [Option.some.injEq] at h
            subst h
            exact hcond2.1
          · exact ih h
        · exact ih h
    · exact ih h

/-! ### Claims on the analyzer and the scrape route -/

/-- **C3.** For every input — including the parser images of the empty string
(the bare skeleton) and of non-markup garbage (a bare text node) — the brand
extraction operation `analyzeBrand` is total (never throws: every sub-pass of
the embedding is a total function) and returns a complete `BrandElements`:
when no color literal is found the full fixed default palette is returned,
when no `font-family` declaration is found the fixed default typography is
returned, and the four required color fields are always non-empty strings. -/
theorem analyzeBrand_total_default_safe (content : ScrapedContent) :
    (scanColors (allCssOf content.html) = [] →
      (analyzeBrand content).colors = defaultBrandColors) ∧
    (scanDecls "font-family" (allCssOf content.html) = [] →
      (analyzeBrand content).typography = defaultTypography) ∧
    (analyzeBrand content).colors.primary ≠ "" ∧
    (analyzeBrand content).colors.secondary ≠ "" ∧
    (analyzeBrand content).colors.background ≠ "" ∧
    (analyzeBrand content).colors.text ≠ "" := by
  have hcolors : (analyzeBrand content).colors = extractColors content := rfl
  have htypo : (analyzeBrand content).typography = extractTypography content := rfl
  refine ⟨?_, ?_, ?_, ?_, ?_, ?_⟩
  · intro h
    rw [hcolors, extractColors_spec, h]
    simp
  · intro h
    rw [htypo]
    simp [extractTypography, h]
  · rw [hcolors, extractColors_spec]
    split
    · exact pool_headD_ne_empty content.html _ _
        (fun c hc => (List.mem_filter.mp hc).1) (by decide)
    · simp [defaultBrandColors]
  · rw [hcolors, extractColors_spec]
    split
    · exact pool_headD_ne_empty content.html _ _
        (fun c hc => (List.mem_filter.mp (List.mem_of_mem_drop hc)).1) (by decide)
    · simp [defaultBrandColors]
  · rw [hcolors, extractColors_spec]
    split
    · exact pool_headD_ne_empty content.html _ _
        (fun c hc => (List.mem_filter.mp hc).1) (by decide)
    · simp [defaultBrandColors]
  · rw [hcolors, extractColors_spec]
    split
    · exact pool_headD_ne_empty content.html _ _
        (fun c hc => (List.mem_filter.mp hc).1) (by decide)
    · simp [defaultBrandColors]

/-- Witness for **C3** at the non-markup-garbage input: no signal is found,
and every default is used. -/
theorem analyzeBrand_total_default_safe_witness :
    (analyzeBrand garbageContent).colors = defaultBrandColors ∧
    (analyzeBrand garbageContent).typography = defaultTypography ∧
    (analyzeBrand garbageContent).colors.primary ≠ "" :=
  ⟨(analyzeBrand_total_default_safe garbageContent).1 (by decide),
   (analyzeBrand_total_default_safe garbageContent).2.1 (by decide),
   (analyzeBrand_total_default_safe garbageContent).2.2.1⟩

/-- **C4** (counterexample.)  The claim says the title fallback always yields
a non-empty name.  On the code, a document with no brand-mark selector match
and an empty title yields the empty name. -/
theorem analyzeBrand_empty_title_empty_name :
    c4EmptyContent.title = "" ∧ (analyzeBrand c4EmptyContent).name = "" := by
  constructor
  · rfl
  · decide

/-- **C4** (amended.)  The extracted name is non-empty whenever the
title-derived fallback (first segment before `' | '` / `' - '`, trimmed) is
non-empty: selector-derived candidates are non-empty by construction, and
otherwise the non-empty fallback is used.  (When the fallback itself trims to
empty — e.g. an empty title — the name is the empty string, as the
counterexample shows.) -/
theorem analyzeBrand_name_nonempty (content : ScrapedContent)
    (h : titleBrandName content.title ≠ "") :
    (analyzeBrand content).name ≠ "" := by
  have hname : (analyzeBrand content).name =
      (match brandNameFromSelectors brandNameSelectors content.html with
       | some n => n
       | none => titleBrandName content.title) := rfl
  rw [hname]
  rcases hb : brandNameFromSelectors brandNameSelectors content.html with _ | n
  · exact h
  · exact brandNameFromSelectors_ne _ _ _ hb

/-- Witness for **C4** (amended): a non-empty title with separators yields a
non-empty name. -/
theorem analyzeBrand_name_nonempty_witness :
    titleBrandName c4TitledContent.title ≠ "" ∧
    (analyzeBrand c4TitledContent).name ≠ "" :=
  ⟨by decide, analyzeBrand_name_nonempty c4TitledContent (by decide)⟩

/-- **C7.** For every inline style text containing exactly three distinct
color literals (so the tally's key list is some permutation of the three),
none white or transparent, with occurrence frequencies five, three and one,
the color extraction pass assigns the frequency-five literal to
`colors.primary`, the frequency-three literal to `colors.secondary`, and the
frequency-one literal to `colors.accent`. -/
theorem extractColors_frequency_ranking (content : ScrapedContent)
    (c1 c2 c3 : String)
    (hkeys : keysInOrder (scanColors (allCssOf content.html)) = [c1, c2, c3] ∨
      keysInOrder (scanColors (allCssOf content.html)) = [c1, c3, c2] ∨
      keysInOrder (scanColors (allCssOf content.html)) = [c2, c1, c3] ∨
      keysInOrder (scanColors (allCssOf content.html)) = [c2, c3, c1] ∨
      keysInOrder (scanColors (allCssOf content.html)) = [c3, c1, c2] ∨
      keysInOrder (scanColors (allCssOf content.html)) = [c3, c2, c1])
    (h1 : (scanColors (allCssOf content.html)).count c1 = 5)
    (h2 : (scanColors (allCssOf content.html)).count c2 = 3)
    (h3 : (scanColors (allCssOf content.html)).count c3 = 1)
    (w1 : isWhiteOrTransparent c1 = false)
    (w2 : isWhiteOrTransparent c2 = false)
    (w3 : isWhiteOrTransparent c3 = false) :
    (extractColors content).primary = c1 ∧
    (extractColors content).secondary = c2 ∧
    (extractColors content).accent = some c3 := by
  have hne : scanColors (allCssOf content.html) ≠ [] := by
    intro hemp
    rcases hkeys with h | h | h | h | h | h <;> rw [hemp] at h <;>
      simp [keysInOrder] at h
  have hsorted : sortedColorsOf content.html = [c1, c2, c3] := by
    unfold sortedColorsOf tally
    rcases hkeys with h | h | h | h | h | h <;> rw [h] <;>
      simp [h1, h2, h3, sortCountDesc, insertDesc]
  have hpool : nonWhitePool (sortedColorsOf content.html) = [c1, c2, c3] := by
    rw [hsorted]
    simp [nonWhitePool, w1, w2, w3]
  exact extractColors_psa_of_pool content (List.length_pos.mpr hne) c1 c2 c3 []
    hpool

/-- Witness for **C7**: a style text with frequencies five, three and one for
three distinct dark hex literals. -/
theorem extractColors_frequency_ranking_witness :
    keysInOrder (scanColors (allCssOf c7Content.html)) =
      ["#111111", "#222222", "#333333"] ∧
    (scanColors (allCssOf c7Content.html)).count "#111111" = 5 ∧
    (scanColors (allCssOf c7Content.html)).count "#222222" = 3 ∧
    (scanColors (allCssOf c7Content.html)).count "#333333" = 1 ∧
    (extractColors c7Content).primary = "#111111" ∧
    (extractColors c7Content).secondary = "#222222" ∧
    (extractColors c7Content).accent = some "#333333" := by
  have h := extractColors_frequency_ranking c7Content "#111111" "#222222"
    "#333333" (Or.inl (by decide)) (by decide) (by decide) (by decide)
    (by decide) (by decide) (by decide)
  exact ⟨by decide, by decide, by decide, by decide, h.1, h.2.1, h.2.2⟩

/-- Tag-count positivity is the presence of an element with that tag. -/
theorem countTag_pos_iff (d : DomNode) (t : String) :
    0 < countTag d t ↔ ∃ e ∈ elemsInfo d, e.1 = t := by
  unfold countTag
  rw [List.length_pos_iff_exists_mem]
  constructor
  · rintro ⟨e, he⟩
    rcases List.mem_filter.mp he with ⟨h1, h2⟩
    exact ⟨e, h1, by simpa using h2⟩
  · rintro ⟨e, he, ht⟩
    exact ⟨e, List.mem_filter.mpr ⟨he, by simpa using ht⟩⟩

/-- Div-class-substring count positivity is the presence of a `div` whose
class attribute contains the substring. -/
theorem countDivClassSub_pos_iff (d : DomNode) (sub : String) :
    0 < countDivClassSub d sub ↔
      ∃ e ∈ elemsInfo d, e.1 = "div" ∧
        ∃ c, getAttr e.2 "class" = some c ∧ strHas c sub = true := by
  unfold countDivClassSub
  rw [List.length_pos_iff_exists_mem]
  constructor
  · rintro ⟨e, he⟩
    rcases List.mem_filter.mp he with ⟨h1, h2⟩
    simp only [Bool.and_eq_true, beq_iff_eq] at h2
    rcases h2 with ⟨hdiv, hmatch⟩
    refine ⟨e, h1, hdiv, ?_⟩
    rcases hc : getAttr e.2 "class" with _ | c
    · rw [hc] at hmatch
      cases hmatch
    · rw [hc] at hmatch
      exact ⟨c, rfl, hmatch⟩
  · rintro ⟨e, he, hdiv, c, hc, hsub⟩
    refine ⟨e, List.mem_filter.mpr ⟨he, ?_⟩⟩
    simp [hdiv, hc, hsub]

/-- **C8** (counterexample.)  The claim says any element whose class contains
"header" makes `structure.header` true.  On the code, only `div` elements are
considered: a document whose sole header-like element is a
`span class="header"` yields `header = false`, while the spec-worded
predicate holds. -/
theorem analyzeStructure_span_cex :
    (analyzeStructure spanHeaderDoc).header = false ∧
    specHeaderPresent spanHeaderDoc = true := by
  decide

/-- **C8** (amended.)  `structure.header` is true exactly when the document
contains a `header` tag or a `div` element whose class attribute contains the
substring "header" (not any element); likewise `footer` with `footer`/
"footer" and `navigation` with the `nav` tag and the substring "nav" (not
"navigation"); and `structure.sections` counts `section` tags plus `div`
elements whose class attribute contains "section" (not elements of any
tag). -/
theorem analyzeStructure_characterization (d : DomNode) :
    ((analyzeStructure d).header = true ↔
      ((∃ e ∈ elemsInfo d, e.1 = "header") ∨
        ∃ e ∈ elemsInfo d, e.1 = "div" ∧
          ∃ c, getAttr e.2 "class" = some c ∧ strHas c "header" = true)) ∧
    ((analyzeStructure d).footer = true ↔
      ((∃ e ∈ elemsInfo d, e.1 = "footer") ∨
        ∃ e ∈ elemsInfo d, e.1 = "div" ∧
          ∃ c, getAttr e.2 "class" = some c ∧ strHas c "footer" = true)) ∧
    ((analyzeStructure d).navigation = true ↔
      ((∃ e ∈ elemsInfo d, e.1 = "nav") ∨
        ∃ e ∈ elemsInfo d, e.1 = "div" ∧
          ∃ c, getAttr e.2 "class" = some c ∧ strHas c "nav" = true)) ∧
    (analyzeStructure d).sections =
      countTag d "section" + countDivClassSub d "section" := by
  refine ⟨?_, ?_, ?_, rfl⟩ <;>
    simp only [analyzeStructure, Bool.or_eq_true, decide_eq_true_eq,
      countTag_pos_iff, countDivClassSub_pos_iff]

/-! ### Rebrander write-back lemmas -/

mutual

/-- Write-back traversal: the running index advances by the number of style
blocks of the subtree, and when every visited index stays below the limit,
every style block of the subtree ends up containing exactly `s`. -/
theorem writeStylesNode_spec (limit : Nat) (s : String) (i : Nat) :
    ∀ d : DomNode,
      (writeStylesNode limit s i d).2 = i + (styleTexts d).length ∧
      (i + (styleTexts d).length ≤ limit →
        styleTexts (writeStylesNode limit s i d).1 =
          List.replicate (styleTexts d).length s)
  | DomNode.text t => by
      simp [writeStylesNode, styleTexts]
  | DomNode.elem t attrs cs => by
      by_cases ht : (t == "style") = true
      · refine ⟨by simp [writeStylesNode, styleTexts, ht], ?_⟩
        intro hle
        have hlt : i < limit := by
          simp only [styleTexts, ht, if_true, List.length_cons,
            List.length_nil] at hle
          omega
        simp [writeStylesNode, styleTexts, ht, hlt, renderNodes, render,
          String.append_empty]
      · have h := writeStylesList_spec limit s i cs
        refine ⟨?_, ?_⟩
        · simpa [writeStylesNode, styleTexts, ht] using h.1
        · intro hle
          have h2 := h.2 (by simpa [styleTexts, ht] using hle)
          simpa [writeStylesNode, styleTexts, ht] using h2

/-- `writeStylesNode_spec`, over a node list. -/
theorem writeStylesList_spec (limit : Nat) (s : String) (i : Nat) :
    ∀ l : List DomNode,
      (writeStylesList limit s i l).2 = i + (styleTextsList l).length ∧
      (i + (styleTextsList l).length ≤ limit →
        styleTextsList (writeStylesList limit s i l).1 =
          List.replicate (styleTextsList l).length s)
  | [] => by simp [writeStylesList, styleTextsList]
  | n :: rest => by
      have hn := writeStylesNode_spec limit s i n
      have hr := writeStylesList_spec limit s (writeStylesNode limit s i n).2 rest
      refine ⟨?_, ?_⟩
      · simp only [writeStylesList]
        rw [hr.1, hn.1]
        simp [styleTextsList, Nat.add_assoc]
      · intro hle
        simp only [styleTextsList, List.length_append] at hle
        have hle1 : i + (styleTexts n).length ≤ limit := by omega
        have hle2 : (writeStylesNode limit s i n).2 +
            (styleTextsList rest).length ≤ limit := by
          rw [hn.1]; omega
        simp only [writeStylesList, styleTextsList]
        rw [List.length_append, List.replicate_add]
        rw [← hn.2 hle1, ← hr.2 hle2]

end

/-! ### Claims on the rebrander -/

/-- **C2** (code bug.)  At the failing input the joined style text contains
exactly one occurrence of the original primary color before replacement and
the replacement rewrites it, but the counter is computed by re-matching the
original pattern against the text AFTER replacement, so
`colorReplacements = 0` where the claim (and §4.4's normative counting
contract) requires the pre-replacement count, 1. -/
theorem rebrand_counts_rescan_replaced_text :
    countCI "#112233" (String.intercalate "\n" (styleTexts c2Content.html)) = 1 ∧
    (rebrandWebsite c2Content c2Original c2Target).css =
      "body\x7bcolor:#ff0000\x7d" ∧
    (rebrandWebsite c2Content c2Original c2Target).changes.colorReplacements =
      0 := by
  decide

/-- **C5** (counterexample.)  The claim says the i-th style block receives
the transformed text of the i-th original block.  On the code, with a
document holding two distinct style blocks and an identity transformation,
BOTH blocks receive the full newline-joined concatenation of all blocks,
while the claim's positional write-back would leave each block its own
text. -/
theorem rebrand_writeback_not_positional_cex :
    styleTexts (rebrandPipeline c5Content c5Brand c5Brand).1 =
      ["a\x7bcolor:red\x7d\nb\x7bcolor:blue\x7d",
       "a\x7bcolor:red\x7d\nb\x7bcolor:blue\x7d"] ∧
    specPositionalStyleTexts c5Content c5Brand c5Brand =
      ["a\x7bcolor:red\x7d", "b\x7bcolor:blue\x7d"] ∧
    styleTexts (rebrandPipeline c5Content c5Brand c5Brand).1 ≠
      specPositionalStyleTexts c5Content c5Brand c5Brand := by
  decide

/-- **C5** (amended.)  The write-back step of `rebrandWebsite` is a
broadcast, not positional: every original inline style block (the `i`-th for
every `i` below the original block count, which is exactly the write-back
limit) receives the SAME text — the entire transformed newline-joined
concatenation of all original blocks — before the document is re-serialized
to markup. -/
theorem rebrand_writeback_broadcast (content : ScrapedContent)
    (ob nb : BrandElements) :
    styleTexts
        (writeStyles (styleTexts (domAfterLogo content ob nb)).length
          (finalCss content ob nb) (domAfterLogo content ob nb)) =
      List.replicate (styleTexts (domAfterLogo content ob nb)).length
        (finalCss content ob nb) := by
  have h := (writeStylesNode_spec (styleTexts (domAfterLogo content ob nb)).length
    (finalCss content ob nb) 0 (domAfterLogo content ob nb)).2
  simpa [writeStyles] using h (by simp)

end Shades
